import Mathlib

/-!
# HospitalPro scheduling engine — verified shallow embedding

This file embeds the category scheduling and slot-generation engine of the
HospitalPro backend (`backend/app/services/schedule_service.py` together with
the data model in `backend/app/models/`) and proves the behavioural
properties stated in the specification.

Modelling conventions:
* Naive local `datetime` values are minutes since 2024-01-01 00:00 (an `Int`);
  2024-01-01 is a Monday, so the weekday of a day number `d` is `d % 7`
  with Python's `Monday = 0` convention.
* Calendar dates (`datetime.date`) are day numbers since 2024-01-01 (an `Int`);
  `date_of` is Python's `datetime.date()` (floor division by 1440, which is
  what Euclidean division by a positive divisor computes).
* Python `time` values are minutes since midnight (a `Nat`).
* The database session is an explicit `Env` value holding the schedule and
  appointment tables; each SQLAlchemy query becomes a `List.filter`.
-/

/-- `CategoryType` enum from `models/category_schedule.py`. -/
inductive CategoryType where
  | SPECIALTY
  | LABORATORY
deriving DecidableEq

/-- `RotationType` enum from `models/category_schedule.py`. -/
inductive RotationType where
  | FIXED
  | ALTERNATED
deriving DecidableEq

/-- `AppointmentStatus` enum from `models/appointment.py`. -/
inductive AppointmentStatus where
  | SCHEDULED
  | CONFIRMED
  | CANCELLED
  | COMPLETED
deriving DecidableEq

/-- Python `datetime.date()` applied to a minutes-since-epoch instant:
floor division by the number of minutes in a day. -/
def date_of (t : Int) : Int := t / 1440

/-- Python `date.weekday()` (Monday = 0); the epoch 2024-01-01 is a Monday. -/
def weekday_of (t : Int) : Int := date_of t % 7

/-- Python `datetime.combine(date, time)`. -/
def combine (day : Int) (t : Nat) : Int := day * 1440 + t

/-- Two-digit zero padding used by `strftime`. -/
def pad2 (n : Nat) : String := if n < 10 then "0" ++ toString n else toString n

/-- Python `time.strftime("%H:%M")` on a minutes-since-midnight time. -/
def formatHM (t : Nat) : String := pad2 (t / 60) ++ ":" ++ pad2 (t % 60)

/-- `CategorySchedule` row (`models/category_schedule.py`).  `start_date` is the
optional per-rule alternation anchor: it is declared by the admin schemas
(`schemas/category_schedule.py`) and read by the service with a `None`
fallback; it is stored here as an optional instant and normalised to a
calendar date by the rotation evaluator, exactly as the service does. -/
structure CategorySchedule where
  id : Nat
  category_type : CategoryType
  name : String
  day_of_week : Int
  start_time : Nat
  turn_duration : Nat
  max_turns_per_block : Nat
  rotation_type : RotationType
  rotation_weeks : Nat
  start_date : Option Int := none
  deadline_time : Option Nat := none
  warning_message : Option String := none
deriving DecidableEq

/-- `Appointment` row (`models/appointment.py`); only the columns the engine
reads (`appointment_date`, `specialty`, `status`) are modelled. -/
structure Appointment where
  appointment_date : Int
  specialty : Option String
  status : AppointmentStatus
deriving DecidableEq

/-- `TimeSlot` output value (`services/schedule_service.py`). -/
structure TimeSlot where
  slot_datetime : Int
  category_name : String
  category_id : Nat
  warning_message : Option String := none
  deadline_time : Option String := none
deriving DecidableEq

/-- The database snapshot a service invocation reads from. -/
structure Env where
  schedules : List CategorySchedule
  appointments : List Appointment

/-- `ScheduleService.ANCHOR_DATE = datetime(2024, 1, 1)`: the global fallback
anchor, which is the epoch of the embedding. -/
def ANCHOR_DATE : Int := 0

/-- The anchor selection inside `_is_schedule_active`:
`anchor_date = category.start_date if category.start_date else ANCHOR_DATE.date()`
followed by the `isinstance(anchor_date, datetime)` normalisation to a date. -/
def anchor_day_of (category : CategorySchedule) : Int :=
  match category.start_date with
  | some sd => date_of sd
  | none => date_of ANCHOR_DATE

/-- `ScheduleService._is_schedule_active(category, date)`. -/
def is_schedule_active (category : CategorySchedule) (date : Int) : Bool :=
  match category.rotation_type with
  | RotationType.FIXED => true
  | RotationType.ALTERNATED =>
    let anchor_day := anchor_day_of category
    let days_since_anchor : Int := date_of date - anchor_day
    if days_since_anchor < 0 then false
    else
      let weeks_since_anchor : Nat := days_since_anchor.toNat / 7
      if 1 < category.rotation_weeks then
        decide (weeks_since_anchor % category.rotation_weeks = 0)
      else true

/-- Builds one `TimeSlot` of `_generate_slots` from the current instant. -/
def mk_slot (category : CategorySchedule) (t : Int) : TimeSlot :=
  { slot_datetime := t
    category_name := category.name
    category_id := category.id
    warning_message := category.warning_message
    deadline_time := category.deadline_time.map formatHM }

/-- The `for turn_number in range(max_turns_per_block)` loop of
`_generate_slots`: append a slot at the current instant, then advance by
`turn_duration` minutes. -/
def generate_slots_loop (category : CategorySchedule) : Int → Nat → List TimeSlot
  | _, 0 => []
  | current_time, n + 1 =>
      mk_slot category current_time ::
        generate_slots_loop category (current_time + category.turn_duration) n

/-- `ScheduleService._generate_slots(category, date)`. -/
def generate_slots (category : CategorySchedule) (date : Int) : List TimeSlot :=
  generate_slots_loop category (combine (date_of date) category.start_time)
    category.max_turns_per_block

/-- `ScheduleService._filter_occupied_slots(slots, category_name)`; the
appointment query runs against the environment's appointment table. -/
def filter_occupied_slots (appointments : List Appointment)
    (slots : List TimeSlot) (category_name : String) : List TimeSlot :=
  if slots.isEmpty then []
  else
    let slot_datetimes := slots.map (fun slot => slot.slot_datetime)
    let occupied := appointments.filter (fun a =>
      slot_datetimes.contains a.appointment_date &&
      decide (a.specialty = some category_name) &&
      (decide (a.status = AppointmentStatus.SCHEDULED) ||
        decide (a.status = AppointmentStatus.CONFIRMED)))
    let occupied_datetimes := occupied.map (fun a => a.appointment_date)
    slots.filter (fun slot => !occupied_datetimes.contains slot.slot_datetime)

/-- `schedules_by_day = {s.day_of_week: s for s in schedules}` plus the lookup
by the cursor's weekday: in a dict comprehension a later entry overwrites an
earlier one with the same key, so the lookup finds the last matching rule. -/
def schedules_by_day (schedules : List CategorySchedule) (wd : Int) :
    Option CategorySchedule :=
  schedules.reverse.find? (fun s => s.day_of_week == wd)

/-- One iteration body of the day-walk in `get_next_available_slots`:
weekday lookup, rotation check, slot generation, the today-filter
(`slot_datetime > now` when the cursor's date equals today), occupancy
filtering, and the append of the first available slot of the day. -/
def day_step (env : Env) (schedules : List CategorySchedule) (now : Int)
    (cursor : Int) (acc : List TimeSlot) : List TimeSlot :=
  match schedules_by_day schedules (weekday_of cursor) with
  | none => acc
  | some category =>
    if is_schedule_active category cursor then
      let slots := generate_slots category cursor
      let slots :=
        if date_of cursor == date_of now then
          slots.filter (fun s => decide (now < s.slot_datetime))
        else slots
      if slots.isEmpty then acc
      else
        match filter_occupied_slots env.appointments slots category.name with
        | [] => acc
        | a :: _ => acc ++ [a]
    else acc

/-- The `while len(all_available_slots) < limit and days_searched < 60` loop of
`get_next_available_slots`; `fuel` is `60 - days_searched` and the cursor
advances by one calendar day (1440 minutes) per iteration. -/
def search_loop (env : Env) (schedules : List CategorySchedule) (now : Int)
    (limit : Nat) : Nat → Int → List TimeSlot → List TimeSlot
  | 0, _, acc => acc
  | fuel + 1, cursor, acc =>
      if limit ≤ acc.length then acc
      else
        search_loop env schedules now limit fuel (cursor + 1440)
          (day_step env schedules now cursor acc)

/-- `ScheduleService.get_next_available_slots(category_name, category_type,
limit)`; `now` is the single `datetime.now()` snapshot of the invocation. -/
def get_next_available_slots (env : Env) (category_name : String)
    (category_type : CategoryType) (limit : Nat) (now : Int) : List TimeSlot :=
  let schedules := env.schedules.filter (fun s =>
    s.name == category_name && decide (s.category_type = category_type))
  if schedules.isEmpty then []
  else search_loop env schedules now limit 60 now []

/-- Modelled from the spec: `get_available_slots(category_id, date)` — the
spec's `available_slots_for_day` — is exercised by the repository's test
suite but its definition is not among the provided service sources.  Per the
spec it looks the rule up by id (an unknown id yields an empty list, never an
error), then performs weekday match, rotation check, slot generation and
occupancy filtering, with no day-walking and no single-slot-per-day
truncation. -/
def get_available_slots (env : Env) (category_id : Nat) (date : Int) :
    List TimeSlot :=
  match env.schedules.find? (fun c => c.id == category_id) with
  | none => []
  | some category =>
    if weekday_of date == category.day_of_week then
      if is_schedule_active category date then
        filter_occupied_slots env.appointments (generate_slots category date)
          category.name
      else []
    else []

/-! ## Lemmas about the slot generation loop -/

theorem generate_slots_loop_length (category : CategorySchedule) :
    ∀ (n : Nat) (current : Int),
      (generate_slots_loop category current n).length = n := by
  intro n
  induction n with
  | zero => intro current; rfl
  | succ m ih =>
      intro current
      simp [generate_slots_loop, ih]

theorem generate_slots_loop_get (category : CategorySchedule) :
    ∀ (n k : Nat) (current : Int)
      (h : k < (generate_slots_loop category current n).length),
      (generate_slots_loop category current n).get ⟨k, h⟩ =
        mk_slot category (current + k * category.turn_duration) := by
  intro n
  induction n with
  | zero => intro k current h; simp [generate_slots_loop] at h
  | succ m ih =>
      intro k current h
      cases k with
      | zero => simp [generate_slots_loop]
      | succ j =>
          have h' : j < (generate_slots_loop category
              (current + category.turn_duration) m).length := by
            simpa [generate_slots_loop] using h
          calc (generate_slots_loop category current (m + 1)).get ⟨j + 1, h⟩
              = (generate_slots_loop category
                  (current + category.turn_duration) m).get ⟨j, h'⟩ := rfl
            _ = mk_slot category (current + category.turn_duration +
                  j * category.turn_duration) := ih j _ h'
            _ = mk_slot category (current + (j + 1) * category.turn_duration)
                := by
                  congr 1
                  ring

theorem mem_generate_slots_loop (category : CategorySchedule) :
    ∀ (n : Nat) (current : Int) (s : TimeSlot),
      s ∈ generate_slots_loop category current n ↔
        ∃ k : Nat, k < n ∧
          s = mk_slot category (current + k * category.turn_duration) := by
  intro n
  induction n with
  | zero =>
      intro current s
      simp [generate_slots_loop]
  | succ m ih =>
      intro current s
      simp only [generate_slots_loop, List.mem_cons, ih]
      constructor
      · rintro (h | ⟨k, hk, hs⟩)
        · exact ⟨0, by omega, by simpa using h⟩
        · refine ⟨k + 1, by omega, ?_⟩
          rw [hs]
          congr 1
          push_cast
          ring
      · rintro ⟨k, hk, hs⟩
        cases k with
        | zero => left; simpa using hs
        | succ j =>
            right
            refine ⟨j, by omega, ?_⟩
            rw [hs]
            congr 1
            push_cast
            ring

theorem generate_slots_length (category : CategorySchedule) (date : Int) :
    (generate_slots category date).length = category.max_turns_per_block := by
  unfold generate_slots
  exact generate_slots_loop_length category _ _

theorem mem_generate_slots (category : CategorySchedule) (date : Int)
    (s : TimeSlot) :
    s ∈ generate_slots category date ↔
      ∃ k : Nat, k < category.max_turns_per_block ∧
        s = mk_slot category
          (combine (date_of date) category.start_time +
            k * category.turn_duration) := by
  unfold generate_slots
  exact mem_generate_slots_loop category _ _ s

/-! ## Lemmas about the occupancy filter -/

theorem filter_occupied_slots_sublist (appointments : List Appointment)
    (slots : List TimeSlot) (category_name : String) :
    (filter_occupied_slots appointments slots category_name).Sublist slots := by
  unfold filter_occupied_slots
  split
  · exact List.nil_sublist slots
  · exact List.filter_sublist slots

theorem mem_of_mem_filter_occupied (appointments : List Appointment)
    (slots : List TimeSlot) (category_name : String) (s : TimeSlot)
    (h : s ∈ filter_occupied_slots appointments slots category_name) :
    s ∈ slots :=
  (filter_occupied_slots_sublist appointments slots category_name).mem h

theorem contains_iff_mem_int (l : List Int) (x : Int) :
    l.contains x = true ↔ x ∈ l := by
  simp [List.contains_eq_any_beq]

theorem mem_filter_occupied_iff (appointments : List Appointment)
    (slots : List TimeSlot) (category_name : String) (s : TimeSlot)
    (hs : s ∈ slots) :
    s ∈ filter_occupied_slots appointments slots category_name ↔
      ¬ ∃ a, a ∈ appointments ∧ a.appointment_date = s.slot_datetime ∧
        a.specialty = some category_name ∧
        (a.status = AppointmentStatus.SCHEDULED ∨
          a.status = AppointmentStatus.CONFIRMED) := by
  have hne : slots.isEmpty = false := by
    cases slots with
    | nil => cases hs
    | cons a l => rfl
  have hred : filter_occupied_slots appointments slots category_name =
      slots.filter (fun slot =>
        !((appointments.filter (fun a =>
            (slots.map (fun slot => slot.slot_datetime)).contains
              a.appointment_date &&
            decide (a.specialty = some category_name) &&
            (decide (a.status = AppointmentStatus.SCHEDULED) ||
              decide (a.status = AppointmentStatus.CONFIRMED)))).map
          (fun a => a.appointment_date)).contains slot.slot_datetime) := by
    unfold filter_occupied_slots
    rw [hne]
    rfl
  have key : ((appointments.filter (fun a =>
        (slots.map (fun slot => slot.slot_datetime)).contains
          a.appointment_date &&
        decide (a.specialty = some category_name) &&
        (decide (a.status = AppointmentStatus.SCHEDULED) ||
          decide (a.status = AppointmentStatus.CONFIRMED)))).map
      (fun a => a.appointment_date)).contains s.slot_datetime = true ↔
      ∃ a, a ∈ appointments ∧ a.appointment_date = s.slot_datetime ∧
        a.specialty = some category_name ∧
        (a.status = AppointmentStatus.SCHEDULED ∨
          a.status = AppointmentStatus.CONFIRMED) := by
    rw [contains_iff_mem_int]
    simp only [List.mem_map, List.mem_filter, Bool.and_eq_true,
      Bool.or_eq_true, decide_eq_true_eq]
    constructor
    · rintro ⟨a, ⟨ha, ⟨hc, hsp⟩, hst⟩, hdt⟩
      exact ⟨a, ha, hdt, hsp, hst⟩
    · rintro ⟨a, ha, hdt, hsp, hst⟩
      refine ⟨a, ⟨ha, ⟨?_, hsp⟩, hst⟩, hdt⟩
      rw [contains_iff_mem_int]
      exact List.mem_map.mpr ⟨s, hs, hdt.symm⟩
  rw [hred, List.mem_filter]
  simp only [hs, true_and, Bool.not_eq_true']
  constructor
  · intro hfalse hex
    have htrue := key.mpr hex
    rw [htrue] at hfalse
    exact Bool.noConfusion hfalse
  · intro hnex
    cases hX : ((appointments.filter (fun a =>
        (slots.map (fun slot => slot.slot_datetime)).contains
          a.appointment_date &&
        decide (a.specialty = some category_name) &&
        (decide (a.status = AppointmentStatus.SCHEDULED) ||
          decide (a.status = AppointmentStatus.CONFIRMED)))).map
      (fun a => a.appointment_date)).contains s.slot_datetime
    · rfl
    · exact absurd (key.mp hX) hnex

/-! ## Lemmas about the weekday lookup and calendar arithmetic -/

theorem schedules_by_day_mem (schedules : List CategorySchedule) (wd : Int)
    (c : CategorySchedule) (h : schedules_by_day schedules wd = some c) :
    c ∈ schedules := by
  unfold schedules_by_day at h
  have := List.mem_of_find?_eq_some h
  simpa using this

theorem date_of_add_day (t : Int) : date_of (t + 1440) = date_of t + 1 := by
  unfold date_of
  omega

theorem date_of_le_of_le {a b : Int} (h : a ≤ b) : date_of a ≤ date_of b := by
  unfold date_of
  omega

theorem lt_of_date_of_lt {a b : Int} (h : date_of a < date_of b) : a < b := by
  unfold date_of at h
  omega

theorem date_of_combine_add (d : Int) (r : Nat) (h : r < 1440) :
    date_of (combine d r) = d := by
  unfold date_of combine
  omega

/-! ## Lemmas about one day of the walk -/

theorem slot_datetime_lb (category : CategorySchedule) (date : Int)
    (s : TimeSlot) (h : s ∈ generate_slots category date) :
    combine (date_of date) category.start_time ≤ s.slot_datetime := by
  rw [mem_generate_slots] at h
  rcases h with ⟨k, hk, rfl⟩
  have hnn : (0 : Int) ≤ (k : Int) * (category.turn_duration : Int) :=
    mul_nonneg (Int.natCast_nonneg k) (Int.natCast_nonneg _)
  simp only [mk_slot]
  omega

theorem slot_date_eq (category : CategorySchedule) (date : Int) (s : TimeSlot)
    (hwithin : category.start_time +
      (category.max_turns_per_block - 1) * category.turn_duration < 1440)
    (h : s ∈ generate_slots category date) :
    date_of s.slot_datetime = date_of date := by
  rw [mem_generate_slots] at h
  rcases h with ⟨k, hk, rfl⟩
  have hkle : k ≤ category.max_turns_per_block - 1 := by omega
  have h1 : k * category.turn_duration ≤
      (category.max_turns_per_block - 1) * category.turn_duration :=
    Nat.mul_le_mul_right _ hkle
  have h2 : category.start_time + k * category.turn_duration < 1440 := by
    omega
  have hval : (mk_slot category (combine (date_of date) category.start_time +
      (k : Int) * (category.turn_duration : Int))).slot_datetime =
      date_of date * 1440 +
        ((category.start_time + k * category.turn_duration : Nat) : Int) := by
    simp only [mk_slot, combine]
    push_cast
    ring
  rw [hval]
  generalize hr : category.start_time + k * category.turn_duration = r at h2
  unfold date_of
  omega

theorem day_step_cases (env : Env) (schedules : List CategorySchedule)
    (now cursor : Int) (acc : List TimeSlot) :
    day_step env schedules now cursor acc = acc ∨
    ∃ a category, day_step env schedules now cursor acc = acc ++ [a] ∧
      schedules_by_day schedules (weekday_of cursor) = some category ∧
      a ∈ generate_slots category cursor ∧
      (date_of cursor = date_of now → now < a.slot_datetime) := by
  unfold day_step
  cases hcat : schedules_by_day schedules (weekday_of cursor) with
  | none => left; rfl
  | some category =>
      by_cases hact : is_schedule_active category cursor
      · simp only [hact, if_true]
        by_cases hdate : date_of cursor == date_of now
        · simp only [hdate, if_true]
          cases hempty : (generate_slots category cursor).filter
              (fun s => decide (now < s.slot_datetime)) |>.isEmpty
          · simp only [Bool.false_eq_true, if_false]
            cases hfo : filter_occupied_slots env.appointments
                ((generate_slots category cursor).filter
                  (fun s => decide (now < s.slot_datetime)))
                category.name with
            | nil => left; rfl
            | cons a t =>
                right
                refine ⟨a, category, rfl, rfl, ?_, ?_⟩
                · have ha : a ∈ filter_occupied_slots env.appointments
                      ((generate_slots category cursor).filter
                        (fun s => decide (now < s.slot_datetime)))
                      category.name := by
                    rw [hfo]; exact List.mem_cons_self a t
                  have := mem_of_mem_filter_occupied _ _ _ _ ha
                  exact (List.mem_filter.mp this).1
                · intro _
                  have ha : a ∈ filter_occupied_slots env.appointments
                      ((generate_slots category cursor).filter
                        (fun s => decide (now < s.slot_datetime)))
                      category.name := by
                    rw [hfo]; exact List.mem_cons_self a t
                  have := mem_of_mem_filter_occupied _ _ _ _ ha
                  have := (List.mem_filter.mp this).2
                  exact of_decide_eq_true this
          · simp only [if_true]; left; trivial
        · simp only [hdate, Bool.false_eq_true, if_false]
          cases hempty : (generate_slots category cursor).isEmpty
          · simp only [Bool.false_eq_true, if_false]
            cases hfo : filter_occupied_slots env.appointments
                (generate_slots category cursor) category.name with
            | nil => left; rfl
            | cons a t =>
                right
                refine ⟨a, category, rfl, rfl, ?_, ?_⟩
                · have ha : a ∈ filter_occupied_slots env.appointments
                      (generate_slots category cursor) category.name := by
                    rw [hfo]; exact List.mem_cons_self a t
                  exact mem_of_mem_filter_occupied _ _ _ _ ha
                · intro heq
                  exfalso
                  rw [heq] at hdate
                  simp at hdate
          · simp only [if_true]; left; trivial
      · simp only [hact, if_false]; left; rfl

theorem day_step_length_le (env : Env) (schedules : List CategorySchedule)
    (now cursor : Int) (acc : List TimeSlot) :
    (day_step env schedules now cursor acc).length ≤ acc.length + 1 := by
  rcases day_step_cases env schedules now cursor acc with h | ⟨a, category, h, _⟩
  · rw [h]; omega
  · rw [h]; simp

/-! ## Invariants of the day-walk -/

theorem search_loop_length_le (env : Env) (schedules : List CategorySchedule)
    (now : Int) (limit : Nat) :
    ∀ (fuel : Nat) (cursor : Int) (acc : List TimeSlot),
      acc.length ≤ limit →
      (search_loop env schedules now limit fuel cursor acc).length ≤ limit := by
  intro fuel
  induction fuel with
  | zero => intro cursor acc h; simpa [search_loop] using h
  | succ n ih =>
      intro cursor acc h
      rw [search_loop]
      by_cases hl : limit ≤ acc.length
      · rw [if_pos hl]; exact h
      · rw [if_neg hl]
        apply ih
        have := day_step_length_le env schedules now cursor acc
        omega

theorem search_loop_future (env : Env) (schedules : List CategorySchedule)
    (now : Int) (limit : Nat) :
    ∀ (fuel : Nat) (cursor : Int) (acc : List TimeSlot),
      date_of now ≤ date_of cursor →
      (∀ s ∈ acc, now < s.slot_datetime) →
      ∀ s ∈ search_loop env schedules now limit fuel cursor acc,
        now < s.slot_datetime := by
  intro fuel
  induction fuel with
  | zero =>
      intro cursor acc _ hacc s hmem
      rw [search_loop] at hmem
      exact hacc s hmem
  | succ n ih =>
      intro cursor acc hc hacc s hmem
      rw [search_loop] at hmem
      by_cases hl : limit ≤ acc.length
      · rw [if_pos hl] at hmem; exact hacc s hmem
      · rw [if_neg hl] at hmem
        refine ih (cursor + 1440) _ ?_ ?_ s hmem
        · rw [date_of_add_day]; omega
        · intro u hu
          rcases day_step_cases env schedules now cursor acc with h |
            ⟨a, category, h, _, hgen, himp⟩
          · rw [h] at hu; exact hacc u hu
          · rw [h] at hu
            rcases List.mem_append.mp hu with hu | hu
            · exact hacc u hu
            · have hua : u = a := by simpa using hu
              subst hua
              by_cases hdate : date_of cursor = date_of now
              · exact himp hdate
              · have hlt : date_of now < date_of cursor := by
                  omega
                have hlb := slot_datetime_lb category cursor u hgen
                unfold combine at hlb
                unfold date_of at hlt hlb
                omega

theorem search_loop_dates (env : Env) (schedules : List CategorySchedule)
    (now : Int) (limit : Nat)
    (H : ∀ c ∈ schedules, c.start_time +
      (c.max_turns_per_block - 1) * c.turn_duration < 1440) :
    ∀ (fuel : Nat) (cursor : Int) (acc : List TimeSlot),
      (∀ s ∈ acc, date_of s.slot_datetime < date_of cursor) →
      acc.Pairwise
        (fun a b => date_of a.slot_datetime < date_of b.slot_datetime) →
      (search_loop env schedules now limit fuel cursor acc).Pairwise
        (fun a b => date_of a.slot_datetime < date_of b.slot_datetime) := by
  intro fuel
  induction fuel with
  | zero =>
      intro cursor acc _ hpw
      rw [search_loop]
      exact hpw
  | succ n ih =>
      intro cursor acc hbound hpw
      rw [search_loop]
      by_cases hl : limit ≤ acc.length
      · rw [if_pos hl]; exact hpw
      · rw [if_neg hl]
        rcases day_step_cases env schedules now cursor acc with h |
          ⟨a, category, h, hcat, hgen, _⟩
        · rw [h]
          refine ih (cursor + 1440) acc ?_ hpw
          intro s hs
          rw [date_of_add_day]
          have := hbound s hs
          omega
        · rw [h]
          have hmem := schedules_by_day_mem schedules (weekday_of cursor)
            category hcat
          have hadate : date_of a.slot_datetime = date_of cursor :=
            slot_date_eq category cursor a (H category hmem) hgen
          refine ih (cursor + 1440) (acc ++ [a]) ?_ ?_
          · intro s hs
            rw [date_of_add_day]
            rcases List.mem_append.mp hs with hs | hs
            · have := hbound s hs; omega
            · have : s = a := by simpa using hs
              subst this
              omega
          · rw [List.pairwise_append]
            refine ⟨hpw, by simp, ?_⟩
            intro x hx y hy
            have : y = a := by simpa using hy
            subst this
            have := hbound x hx
            omega

/-! ## Unfolding lemma for the ALTERNATED branch -/

theorem is_schedule_active_alternated (r : CategorySchedule) (d : Int)
    (h1 : r.rotation_type = RotationType.ALTERNATED) :
    is_schedule_active r d =
      (if date_of d - anchor_day_of r < 0 then false
       else if 1 < r.rotation_weeks then
         decide ((date_of d - anchor_day_of r).toNat / 7 %
           r.rotation_weeks = 0)
       else true) := by
  unfold is_schedule_active
  rw [h1]

/-! ## Concrete fixtures (rules, appointments, environments) -/

/-- The FIXED Monday 09:00, 30 min × 4 "Cardiology" rule of the test suite. -/
def cardiology_rule : CategorySchedule :=
  { id := 1, category_type := CategoryType.SPECIALTY, name := "Cardiology",
    day_of_week := 0, start_time := 540, turn_duration := 30,
    max_turns_per_block := 4, rotation_type := RotationType.FIXED,
    rotation_weeks := 1 }

/-- A SCHEDULED appointment at Monday 2024-01-08 09:30 for "Cardiology". -/
def occupied_appt : Appointment :=
  { appointment_date := 10650, specialty := some "Cardiology",
    status := AppointmentStatus.SCHEDULED }

/-- Environment of the occupied-slot scenario. -/
def cardiology_env : Env :=
  { schedules := [cardiology_rule], appointments := [occupied_appt] }

/-- ALTERNATED rule, `rotation_weeks = 2`, anchored at 2024-01-01. -/
def blood_test_rule : CategorySchedule :=
  { id := 4, category_type := CategoryType.LABORATORY, name := "Blood Test",
    day_of_week := 0, start_time := 480, turn_duration := 15,
    max_turns_per_block := 3, rotation_type := RotationType.ALTERNATED,
    rotation_weeks := 2, start_date := some 0 }

/-- ALTERNATED rule with `rotation_weeks = 1` and no per-rule anchor. -/
def weekly_alternated_rule : CategorySchedule :=
  { id := 3, category_type := CategoryType.LABORATORY, name := "X-Ray",
    day_of_week := 0, start_time := 600, turn_duration := 20,
    max_turns_per_block := 2, rotation_type := RotationType.ALTERNATED,
    rotation_weeks := 1 }

/-- Monday "X" rule whose second slot rolls past midnight
(23:00 start, 120-minute turns). -/
def midnight_rule_monday : CategorySchedule :=
  { id := 1, category_type := CategoryType.SPECIALTY, name := "X",
    day_of_week := 0, start_time := 1380, turn_duration := 120,
    max_turns_per_block := 2, rotation_type := RotationType.FIXED,
    rotation_weeks := 1 }

/-- Tuesday "X" rule with a single 00:30 slot. -/
def midnight_rule_tuesday : CategorySchedule :=
  { id := 2, category_type := CategoryType.SPECIALTY, name := "X",
    day_of_week := 1, start_time := 30, turn_duration := 30,
    max_turns_per_block := 1, rotation_type := RotationType.FIXED,
    rotation_weeks := 1 }

/-- Environment in which the Monday 23:00 slot is occupied, so the walk's
Monday pick (Tuesday 01:00) lands after its Tuesday pick (Tuesday 00:30). -/
def midnight_env : Env :=
  { schedules := [midnight_rule_monday, midnight_rule_tuesday],
    appointments := [{ appointment_date := 11460, specialty := some "X",
                       status := AppointmentStatus.SCHEDULED }] }

/-- Monday "Pediatria" rule (09:00, 30 min × 2, FIXED). -/
def pediatria_rule_monday : CategorySchedule :=
  { id := 5, category_type := CategoryType.SPECIALTY, name := "Pediatria",
    day_of_week := 0, start_time := 540, turn_duration := 30,
    max_turns_per_block := 2, rotation_type := RotationType.FIXED,
    rotation_weeks := 1 }

/-- Wednesday "Pediatria" rule (14:00, 30 min × 2, FIXED). -/
def pediatria_rule_wednesday : CategorySchedule :=
  { id := 6, category_type := CategoryType.SPECIALTY, name := "Pediatria",
    day_of_week := 2, start_time := 840, turn_duration := 30,
    max_turns_per_block := 2, rotation_type := RotationType.FIXED,
    rotation_weeks := 1 }

/-- Environment with the two "Pediatria" weekday rules and no appointments. -/
def pediatria_env : Env :=
  { schedules := [pediatria_rule_monday, pediatria_rule_wednesday],
    appointments := [] }

/-- The 09:00 slot of the Cardiology Monday block on 2024-01-08. -/
def slot_0900 : TimeSlot :=
  { slot_datetime := 10620, category_name := "Cardiology", category_id := 1 }

/-- The 09:30 slot of the Cardiology Monday block on 2024-01-08. -/
def slot_0930 : TimeSlot :=
  { slot_datetime := 10650, category_name := "Cardiology", category_id := 1 }

/-- The 10:00 slot the day-walk returns in the future-only witness. -/
def found_slot : TimeSlot :=
  { slot_datetime := 10680, category_name := "Cardiology", category_id := 1 }

theorem mem_generate_slots_loop_lb (c : CategorySchedule) (n : Nat)
    (cur : Int) (s : TimeSlot) (h : s ∈ generate_slots_loop c cur n) :
    cur ≤ s.slot_datetime := by
  rw [mem_generate_slots_loop] at h
  rcases h with ⟨k, _, rfl⟩
  have hnn : (0 : Int) ≤ (k : Int) * (c.turn_duration : Int) :=
    mul_nonneg (Int.natCast_nonneg k) (Int.natCast_nonneg _)
  simp only [mk_slot]
  omega

theorem generate_slots_loop_pairwise (c : CategorySchedule)
    (hd : 0 < c.turn_duration) :
    ∀ (n : Nat) (cur : Int),
      (generate_slots_loop c cur n).Pairwise
        (fun a b => a.slot_datetime < b.slot_datetime) := by
  intro n
  induction n with
  | zero => intro cur; exact List.Pairwise.nil
  | succ m ih =>
      intro cur
      rw [show generate_slots_loop c cur (m + 1) =
        mk_slot c cur :: generate_slots_loop c (cur + c.turn_duration) m
        from rfl]
      rw [List.pairwise_cons]
      constructor
      · intro b hb
        have hlb := mem_generate_slots_loop_lb c m _ b hb
        have hdi : (0 : Int) < (c.turn_duration : Int) := by
          exact_mod_cast hd
        simp only [mk_slot]
        omega
      · exact ih _

/-! ## Claim theorems -/

/-- C2: for an ALTERNATED rule with `rotation_weeks = N > 1` and per-rule
anchor `A` (its `start_date`, normalised to a date), `is_schedule_active`
holds on a date `d` exactly when `A ≤ d` and
`floor((d - A).days / 7) % N = 0`; in particular every date strictly before
the anchor is inactive. -/
theorem alternated_rotation_periodicity (r : CategorySchedule) (d sd : Int)
    (h1 : r.rotation_type = RotationType.ALTERNATED)
    (h2 : r.start_date = some sd)
    (h3 : 1 < r.rotation_weeks) :
    is_schedule_active r d = true ↔
      (date_of sd ≤ date_of d ∧
        (date_of d - date_of sd).toNat / 7 % r.rotation_weeks = 0) := by
  rw [is_schedule_active_alternated r d h1]
  have ha : anchor_day_of r = date_of sd := by
    unfold anchor_day_of
    rw [h2]
  rw [ha]
  by_cases hneg : date_of d - date_of sd < 0
  · rw [if_pos hneg]
    constructor
    · intro h; exact absurd h (by simp)
    · rintro ⟨hle, _⟩; omega
  · rw [if_neg hneg, if_pos h3, decide_eq_true_eq]
    constructor
    · intro h; exact ⟨by omega, h⟩
    · rintro ⟨_, h⟩; exact h

/-- Witness for C2 at the spec's concrete instance: anchor 2024-01-01, N = 2;
active on 2024-01-01 (day 0) and 2024-01-15 (day 14), inactive on 2024-01-08
(day 7) and on 2023-12-31 (day −1, before the anchor). -/
theorem alternated_rotation_periodicity_witness :
    is_schedule_active blood_test_rule 0 = true ∧
    is_schedule_active blood_test_rule (14 * 1440) = true ∧
    is_schedule_active blood_test_rule (7 * 1440) = false ∧
    is_schedule_active blood_test_rule (-1440) = false ∧
    (is_schedule_active blood_test_rule (14 * 1440) = true ↔
      (date_of (0 : Int) ≤ date_of (14 * 1440) ∧
        (date_of (14 * 1440) - date_of (0 : Int)).toNat / 7 %
          blood_test_rule.rotation_weeks = 0)) :=
  ⟨by decide, by decide, by decide, by decide,
    alternated_rotation_periodicity blood_test_rule (14 * 1440) 0 rfl rfl
      (by decide)⟩

/-- C4: for a rule with positive `turn_duration` and positive
`max_turns_per_block`, `generate_slots` returns exactly
`max_turns_per_block` slots, slot `k` sits at
`combine(date, start_time) + k * turn_duration` minutes, and the sequence is
strictly increasing in time. -/
theorem generate_slots_count_spacing (c : CategorySchedule) (d : Int)
    (h1 : 0 < c.turn_duration) (_h2 : 0 < c.max_turns_per_block) :
    (generate_slots c d).length = c.max_turns_per_block ∧
    (∀ (k : Nat) (hk : k < (generate_slots c d).length),
      ((generate_slots c d).get ⟨k, hk⟩).slot_datetime =
        combine (date_of d) c.start_time + k * c.turn_duration) ∧
    (generate_slots c d).Pairwise
      (fun a b => a.slot_datetime < b.slot_datetime) := by
  refine ⟨generate_slots_length c d, ?_, ?_⟩
  · intro k hk
    unfold generate_slots at hk ⊢
    rw [generate_slots_loop_get c _ k _ hk]
    rfl
  · unfold generate_slots
    exact generate_slots_loop_pairwise c h1 c.max_turns_per_block _

/-- Witness for C4 on the Cardiology rule at Monday 2024-01-08. -/
theorem generate_slots_count_spacing_witness :
    (generate_slots cardiology_rule 10080).length =
      cardiology_rule.max_turns_per_block ∧
    (generate_slots cardiology_rule 10080).Pairwise
      (fun a b => a.slot_datetime < b.slot_datetime) :=
  ⟨(generate_slots_count_spacing cardiology_rule 10080 (by decide)
      (by decide)).1,
    (generate_slots_count_spacing cardiology_rule 10080 (by decide)
      (by decide)).2.2⟩

/-- C5: the occupancy filter removes a slot exactly when some appointment
sits at precisely that instant with `specialty` equal to the resource name
and status SCHEDULED or CONFIRMED; CANCELLED/COMPLETED appointments, other
resources and other instants never remove a slot, and survivors keep their
relative order (the result is a sublist of the input). -/
theorem filter_occupied_exactness (appointments : List Appointment)
    (slots : List TimeSlot) (resource : String) :
    (filter_occupied_slots appointments slots resource).Sublist slots ∧
    ∀ s ∈ slots,
      (s ∈ filter_occupied_slots appointments slots resource ↔
        ¬ ∃ a, a ∈ appointments ∧ a.appointment_date = s.slot_datetime ∧
          a.specialty = some resource ∧
          (a.status = AppointmentStatus.SCHEDULED ∨
            a.status = AppointmentStatus.CONFIRMED)) :=
  ⟨filter_occupied_slots_sublist appointments slots resource,
    fun s hs => mem_filter_occupied_iff appointments slots resource s hs⟩

/-- Witness for C5: the 09:30 slot with a SCHEDULED 09:30 Cardiology
appointment present. -/
theorem filter_occupied_exactness_witness :
    (filter_occupied_slots [occupied_appt] [slot_0900, slot_0930]
      "Cardiology").Sublist [slot_0900, slot_0930] ∧
    (slot_0930 ∈ filter_occupied_slots [occupied_appt] [slot_0900, slot_0930]
        "Cardiology" ↔
      ¬ ∃ a, a ∈ [occupied_appt] ∧
        a.appointment_date = slot_0930.slot_datetime ∧
        a.specialty = some "Cardiology" ∧
        (a.status = AppointmentStatus.SCHEDULED ∨
          a.status = AppointmentStatus.CONFIRMED)) :=
  ⟨(filter_occupied_exactness [occupied_appt] [slot_0900, slot_0930]
      "Cardiology").1,
    (filter_occupied_exactness [occupied_appt] [slot_0900, slot_0930]
      "Cardiology").2 slot_0930 (by decide)⟩

/-- C6 counterexample: the claim says an ALTERNATED rule with
`rotation_weeks ≤ 1` is active on EVERY date, but `_is_schedule_active`
checks `days_since_anchor < 0` first: on 2023-12-31 (one day before the
global anchor 2024-01-01) the rule is inactive. -/
theorem alternated_weeks_le_one_counterexample :
    weekly_alternated_rule.rotation_type = RotationType.ALTERNATED ∧
    weekly_alternated_rule.rotation_weeks ≤ 1 ∧
    is_schedule_active weekly_alternated_rule (-1440) = false := by
  decide

/-- C6 amended: an ALTERNATED rule with `rotation_weeks ≤ 1` is active on
every date on or after its anchor; dates strictly before the anchor remain
inactive (the pre-anchor check precedes the degenerate-rotation fallback). -/
theorem alternated_weeks_le_one_active_from_anchor (r : CategorySchedule)
    (d : Int) (h1 : r.rotation_type = RotationType.ALTERNATED)
    (h2 : r.rotation_weeks ≤ 1) (h3 : anchor_day_of r ≤ date_of d) :
    is_schedule_active r d = true := by
  rw [is_schedule_active_alternated r d h1]
  rw [if_neg (by omega), if_neg (by omega)]

/-- Witness for C6 (amended) at the anchor date itself. -/
theorem alternated_weeks_le_one_active_from_anchor_witness :
    is_schedule_active weekly_alternated_rule 0 = true :=
  alternated_weeks_le_one_active_from_anchor weekly_alternated_rule 0 rfl
    (by decide) (by decide)

/-- Refinement definition following the spec's words for the ALTERNATED
branch of the Rotation Evaluator: with both the candidate date and the
anchor already normalised to calendar dates, a date before the anchor is
inactive; otherwise the rule is active iff `floor(days / 7)` is congruent
to 0 modulo `rotation_weeks`, and always active when `rotation_weeks ≤ 1`. -/
def alternated_active_spec (anchor : Int) (rotation_weeks : Nat)
    (day : Int) : Bool :=
  if day < anchor then false
  else if 1 < rotation_weeks then
    decide ((day - anchor).toNat / 7 % rotation_weeks = 0)
  else true

/-- C7: for every ALTERNATED rule, `_is_schedule_active` evaluates the
spec-side alternation formula at the anchor
`start_date`-normalised-to-a-date when present, else the global constant
2024-01-01, with the candidate date also normalised to a calendar date. -/
theorem alternated_anchor_selection (r : CategorySchedule) (d : Int)
    (h1 : r.rotation_type = RotationType.ALTERNATED) :
    is_schedule_active r d =
      alternated_active_spec
        ((r.start_date.map date_of).getD (date_of ANCHOR_DATE))
        r.rotation_weeks (date_of d) := by
  rw [is_schedule_active_alternated r d h1]
  unfold alternated_active_spec
  have hA : (r.start_date.map date_of).getD (date_of ANCHOR_DATE) =
      anchor_day_of r := by
    unfold anchor_day_of
    cases r.start_date <;> rfl
  rw [hA]
  exact if_congr (by omega) rfl rfl

/-- Witness for C7 on the anchored two-week rule at day 7. -/
theorem alternated_anchor_selection_witness :
    is_schedule_active blood_test_rule (7 * 1440) =
      alternated_active_spec
        ((blood_test_rule.start_date.map date_of).getD (date_of ANCHOR_DATE))
        blood_test_rule.rotation_weeks (date_of (7 * 1440)) :=
  alternated_anchor_selection blood_test_rule (7 * 1440) rfl

/-- C8: the day-walk is bounded — it is defined by recursion on a fuel of 60
days, advancing the cursor by exactly one calendar day (1440 minutes) per
iteration and stopping as soon as `limit` slots are collected — so
`get_next_available_slots` is total and never returns more than `limit`
slots. -/
theorem get_next_available_slots_length_le (env : Env)
    (category_name : String) (category_type : CategoryType) (limit : Nat)
    (now : Int) :
    (get_next_available_slots env category_name category_type limit
      now).length ≤ limit := by
  unfold get_next_available_slots
  simp only []
  split
  · simp
  · exact search_loop_length_le env _ now limit 60 now [] (by simp)

/-- C9: when no schedule row matches the requested category name and type,
`get_next_available_slots` returns the empty list — a normal result, not an
error. -/
theorem get_next_available_slots_unknown_empty (env : Env)
    (category_name : String) (category_type : CategoryType) (limit : Nat)
    (now : Int)
    (h : env.schedules.filter (fun s =>
      s.name == category_name && decide (s.category_type = category_type))
      = []) :
    get_next_available_slots env category_name category_type limit now
      = [] := by
  unfold get_next_available_slots
  rw [h]
  rfl

/-- Witness for C9: querying a name with no matching rule. -/
theorem get_next_available_slots_unknown_empty_witness :
    get_next_available_slots pediatria_env "Dermatology"
      CategoryType.SPECIALTY 3 0 = [] :=
  get_next_available_slots_unknown_empty pediatria_env "Dermatology"
    CategoryType.SPECIALTY 3 0 (by decide)

/-- C10: every slot returned by `get_next_available_slots` lies strictly in
the future of the invocation's single `now` snapshot: the starting day's
slots are filtered by `slot_datetime > now`, and later days' slots begin on
a strictly later calendar date. -/
theorem get_next_available_slots_future_only (env : Env)
    (category_name : String) (category_type : CategoryType) (limit : Nat)
    (now : Int) :
    ∀ s ∈ get_next_available_slots env category_name category_type limit now,
      now < s.slot_datetime := by
  intro s hs
  unfold get_next_available_slots at hs
  simp only [] at hs
  split at hs
  · cases hs
  · exact search_loop_future env _ now limit 60 now [] le_rfl
      (by intro u hu; cases hu) s hs

/-- Witness for C10: with `now` = Monday 2024-01-08 09:20, the walk skips
the elapsed 09:00 slot and the occupied 09:30 slot and returns 10:00. -/
theorem get_next_available_slots_future_only_witness :
    (10640 : Int) < found_slot.slot_datetime :=
  get_next_available_slots_future_only cardiology_env "Cardiology"
    CategoryType.SPECIALTY 1 10640 found_slot (by decide)

/-- C1 counterexample: slots are stamped by adding multiples of
`turn_duration` to `combine(date, start_time)` with no midnight cap, so a
day's chosen slot can fall on the NEXT calendar date.  With the Monday rule
23:00 + 120 min × 2 (its 23:00 slot occupied) and a Tuesday rule at 00:30,
`get_next_available_slots` called on Sunday 2024-01-07 12:00 with limit 2
returns Tuesday 01:00 followed by Tuesday 00:30 — not strictly ascending,
and both on the same calendar date. -/
theorem next_slots_ascending_counterexample :
    (get_next_available_slots midnight_env "X" CategoryType.SPECIALTY 2
      9360).map (fun s => s.slot_datetime) = [11580, 11550] ∧
    ¬ (get_next_available_slots midnight_env "X" CategoryType.SPECIALTY 2
      9360).Pairwise (fun a b => a.slot_datetime < b.slot_datetime) ∧
    date_of 11580 = date_of 11550 := by
  refine ⟨by decide, ?_, by decide⟩
  intro h
  have hval : get_next_available_slots midnight_env "X"
      CategoryType.SPECIALTY 2 9360 =
      [{ slot_datetime := 11580, category_name := "X", category_id := 1 },
       { slot_datetime := 11550, category_name := "X", category_id := 2 }]
      := by decide
  rw [hval] at h
  have := (List.pairwise_cons.mp h).1 _ (List.mem_cons_self _ _)
  exact absurd this (by decide)

/-- C1 amended: each active day of the walk contributes at most one slot
(the earliest remaining free one) and days are visited in forward order;
provided every matching rule's generated slots stay within their generating
calendar day (`start_time + (max_turns_per_block − 1) * turn_duration <
1440` minutes), the returned list is strictly ascending by `slot_datetime`
with strictly increasing (hence pairwise distinct) calendar dates. -/
theorem next_slots_one_per_day_ascending (env : Env) (category_name : String)
    (category_type : CategoryType) (limit : Nat) (now : Int)
    (H : ∀ c ∈ env.schedules.filter (fun s =>
        s.name == category_name && decide (s.category_type = category_type)),
      c.start_time + (c.max_turns_per_block - 1) * c.turn_duration < 1440) :
    (get_next_available_slots env category_name category_type limit
      now).Pairwise (fun a b => a.slot_datetime < b.slot_datetime ∧
        date_of a.slot_datetime < date_of b.slot_datetime) := by
  unfold get_next_available_slots
  simp only []
  split
  · exact List.Pairwise.nil
  · have hp := search_loop_dates env _ now limit H 60 now []
      (by intro u hu; cases hu) List.Pairwise.nil
    exact hp.imp (fun h => ⟨lt_of_date_of_lt h, h⟩)

/-- Witness for C1 (amended): the two in-day "Pediatria" rules queried from
Sunday 2024-01-07 noon. -/
theorem next_slots_one_per_day_ascending_witness :
    (get_next_available_slots pediatria_env "Pediatria"
      CategoryType.SPECIALTY 3 9360).Pairwise
      (fun a b => a.slot_datetime < b.slot_datetime ∧
        date_of a.slot_datetime < date_of b.slot_datetime) :=
  next_slots_one_per_day_ascending pediatria_env "Pediatria"
    CategoryType.SPECIALTY 3 9360 (by decide)

/-- C3 (spec-modelled second entry point): `get_available_slots` returns the
full free set of one rule's day — no day-walking, no one-slot-per-day cap.
At the spec's scenario (FIXED Monday 09:00 + 30 min × 4 "Cardiology" rule;
one SCHEDULED 09:30 appointment for the same resource name; queried for
Monday 2024-01-08) it returns exactly the three slots 09:00, 10:00 and
10:30. -/
theorem get_available_slots_full_day :
    (get_available_slots cardiology_env 1 10080).map
      (fun s => s.slot_datetime) = [10620, 10680, 10710] ∧
    (get_available_slots cardiology_env 1 10080).length = 3 := by
  decide
